import Mathlib

/-!
Shallow embedding of `strategies.py` from the lichess-bot repository.

The file models:
* the chess-library interface the strategies consume (legal-move list, SAN
  rendering, the `parse_san` dispatch of the python-chess library, including
  its SAN regular expression and its error classes);
* the three local strategies `RandomMove`, `Alphabetical`, `FirstMove`;
* the remote resolver `LlamaEngine.search`, embedded as a pure function from
  game context, board and an abstract HTTP transport to an event trace (the
  outbound POST and the diagnostic chat messages, in order) together with a
  result that is either a `PlayResult` or an error.

Machine chess rules themselves are out of scope (the repository treats the
chess library as an external collaborator); the board is therefore abstract
data carrying its legal moves and notation functions, constrained by the
invariants the python-chess code guarantees (every move produced by SAN
matching or castling generation is a legal move).
-/

namespace LichessBot

/-- A chess move as the strategies see it: python-chess `Move` values render
to a UCI string via `str(move)`; that rendering is all the code consumes. -/
structure Move where
  uci : String
deriving DecidableEq, Repr

/-- The error classes python-chess `Board.parse_san` raises:
`InvalidMoveError` for notation the SAN regular expression rejects,
`IllegalMoveError` for well-formed notation with no matching legal move
(also raised for null-move strings and unavailable castling), and
`AmbiguousMoveError` when several legal moves match. -/
inductive ChessError
  | invalidMove
  | illegalMove
  | ambiguousMove
deriving DecidableEq, Repr

/-- Character class `[NBKRQ]` of the SAN regular expression. -/
def isPieceChar (c : Char) : Bool :=
  c = 'N' || c = 'B' || c = 'K' || c = 'R' || c = 'Q'

/-- Character class `[a-h]`. -/
def isFileChar (c : Char) : Bool :=
  'a' ≤ c && c ≤ 'h'

/-- Character class `[1-8]`. -/
def isRankChar (c : Char) : Bool :=
  '1' ≤ c && c ≤ '8'

/-- Character class `[nbrqkNBRQK]` for promotion pieces. -/
def isPromoChar (c : Char) : Bool :=
  c = 'n' || c = 'b' || c = 'r' || c = 'q' || c = 'k' ||
  c = 'N' || c = 'B' || c = 'R' || c = 'Q' || c = 'K'

/-- Matches the tail `[\+#]?\Z` of the SAN regular expression. -/
def matchSuffix : List Char → Bool
  | [] => true
  | [c] => c = '+' || c = '#'
  | _ => false

/-- Matches `(=?[nbrqkNBRQK])?[\+#]?\Z`. -/
def matchPromoSuffix (cs : List Char) : Bool :=
  matchSuffix cs ||
  (match cs with
   | '=' :: p :: rest => isPromoChar p && matchSuffix rest
   | p :: rest => isPromoChar p && matchSuffix rest
   | _ => false)

/-- Matches `([a-h][1-8])(=?[nbrqkNBRQK])?[\+#]?\Z`: the mandatory target
square and everything after it. -/
def matchSquareRest (cs : List Char) : Bool :=
  match cs with
  | f :: r :: rest => isFileChar f && isRankChar r && matchPromoSuffix rest
  | _ => false

/-- Matches `[\-x]?` followed by the target square and tail. -/
def sanTail (cs : List Char) : Bool :=
  matchSquareRest cs ||
  (match cs with
   | c :: rest => (c = '-' || c = 'x') && matchSquareRest rest
   | _ => false)

/-- Matches the optional disambiguating rank `([1-8])?` followed by the tail. -/
def sanAfterFile (cs : List Char) : Bool :=
  sanTail cs ||
  (match cs with
   | c :: rest => isRankChar c && sanTail rest
   | _ => false)

/-- Matches the optional disambiguating file `([a-h])?` followed by the rest. -/
def sanAfterPiece (cs : List Char) : Bool :=
  sanAfterFile cs ||
  (match cs with
   | c :: rest => isFileChar c && sanAfterFile rest
   | _ => false)

/-- Matches the first alternative of the SAN regular expression:
`([NBKRQ])?([a-h])?([1-8])?[\-x]?([a-h][1-8])(=?[nbrqkNBRQK])?[\+#]?\Z`. -/
def sanNormal (cs : List Char) : Bool :=
  sanAfterPiece cs ||
  (match cs with
   | c :: rest => isPieceChar c && sanAfterPiece rest
   | _ => false)

/-- Matches the second alternative `(O-O(-O)?)[\+#]?\Z`. -/
def sanCastleAlt (cs : List Char) : Bool :=
  match cs with
  | 'O' :: '-' :: 'O' :: rest =>
    matchSuffix rest ||
    (match rest with
     | '-' :: 'O' :: rest2 => matchSuffix rest2
     | _ => false)
  | _ => false

/-- The python-chess `SAN_REGEX`
`^([NBKRQ])?([a-h])?([1-8])?[\-x]?([a-h][1-8])(=?[nbrqkNBRQK])?[\+#]?\Z|^(O-O(-O)?)[\+#]?\Z`
as a decidable acceptance test, backtracking-complete over each optional
group. -/
def sanRegexMatches (s : String) : Bool :=
  sanNormal s.toList || sanCastleAlt s.toList

/-- Kingside castling spellings accepted by `parse_san` before the regex. -/
def castlingKingsideSan : List String :=
  ["O-O", "O-O+", "O-O#", "0-0", "0-0+", "0-0#"]

/-- Queenside castling spellings accepted by `parse_san` before the regex. -/
def castlingQueensideSan : List String :=
  ["O-O-O", "O-O-O+", "O-O-O#", "0-0-0", "0-0-0+", "0-0-0#"]

/-- Null-move spellings `parse_san` rejects with `IllegalMoveError`. -/
def nullMoveSan : List String :=
  ["--", "Z0", "0000", "@@@@"]

/-- The abstract chess board interface consumed by `strategies.py`: the list
of legal moves, SAN rendering of a move, the set of legal moves matching a
regex-accepted SAN string (the filter the `parse_san` matching loop runs over
`generate_legal_moves`), the legal kingside and queenside castling moves if
any, the PGN main-line move text (what `str(Game.from_board(board).mainline_moves())`
produces), and the fullmove number. Invariant fields record what python-chess
guarantees: SAN candidates and castling moves are drawn from the legal moves. -/
structure Board where
  legalMoves : List Move
  sanOf : Move → String
  sanCandidates : String → List Move
  kingsideCastle : Option Move
  queensideCastle : Option Move
  pgnMoveText : String
  fullmove_number : Nat
  candidates_legal : ∀ s m, m ∈ sanCandidates s → m ∈ legalMoves
  kingside_legal : ∀ m, kingsideCastle = some m → m ∈ legalMoves
  queenside_legal : ∀ m, queensideCastle = some m → m ∈ legalMoves

/-- Embedding of python-chess `Board.parse_san`: castling spellings first
(missing castling move, from `StopIteration`, becomes `IllegalMoveError`);
then the SAN regular expression — on failure, null-move spellings raise
`IllegalMoveError` and everything else `InvalidMoveError`; on success the
matching loop over legal moves yields the unique match, `IllegalMoveError`
when there is none, `AmbiguousMoveError` when there are several. -/
def Board.parse_san (b : Board) (san : String) : Except ChessError Move :=
  if san ∈ castlingKingsideSan then
    match b.kingsideCastle with
    | some m => .ok m
    | none => .error .illegalMove
  else if san ∈ castlingQueensideSan then
    match b.queensideCastle with
    | some m => .ok m
    | none => .error .illegalMove
  else if sanRegexMatches san then
    match b.sanCandidates san with
    | [] => .error .illegalMove
    | [m] => .ok m
    | _ :: _ :: _ => .error .ambiguousMove
  else if san ∈ nullMoveSan then
    .error .illegalMove
  else
    .error .invalidMove

/-- The result type of a strategy `search`, mirroring
`chess.engine.PlayResult(move, ponder, resigned=...)`. -/
structure PlayResult where
  move : Option Move
  ponder : Option Move
  resigned : Bool := false
deriving DecidableEq, Repr

/-- Comparison by a string-valued key, the relation underlying
`list.sort(key=...)`. -/
def keyLe {α : Type} (key : α → String) (a b : α) : Prop :=
  key a ≤ key b

instance {α : Type} (key : α → String) : DecidableRel (keyLe key) :=
  fun a b => inferInstanceAs (Decidable (key a ≤ key b))

instance {α : Type} (key : α → String) : IsTotal α (keyLe key) :=
  ⟨fun a b => le_total (key a) (key b)⟩

instance {α : Type} (key : α → String) : IsTrans α (keyLe key) :=
  ⟨fun _ _ _ h1 h2 => le_trans h1 h2⟩

/-- Embedding of the Python stable sort `lst.sort(key=key)` (any stable sort
by a total key order computes the same list; insertion sort is one). -/
def sortByKey {α : Type} (key : α → String) (l : List α) : List α :=
  List.insertionSort (keyLe key) l

theorem sortByKey_head_min {α : Type} (key : α → String) (l : List α)
    (m : α) (rest : List α) (h : sortByKey key l = m :: rest) :
    m ∈ l ∧ ∀ x ∈ l, key m ≤ key x := by
  have hperm := List.perm_insertionSort (keyLe key) l
  have hmem : m ∈ sortByKey key l := by rw [h]; exact List.mem_cons_self m rest
  have hsorted := List.sorted_insertionSort (keyLe key) l
  rw [show List.insertionSort (keyLe key) l = sortByKey key l from rfl, h] at hsorted
  constructor
  · exact hperm.mem_iff.mp hmem
  · intro x hx
    have hx2 : x ∈ sortByKey key l := hperm.mem_iff.mpr hx
    rw [h] at hx2
    rcases List.mem_cons.mp hx2 with hxm | hxr
    · rw [hxm]
    · exact List.rel_of_sorted_cons hsorted x hxr

theorem sortByKey_perm {α : Type} (key : α → String) (l : List α) :
    List.Perm (sortByKey key l) l :=
  List.perm_insertionSort (keyLe key) l

/-- Embedding of `RandomMove.search`: `random.choice(seq)` draws an index
below `len(seq)` from the generator and returns `seq[i]`; the draw is the
extra `Nat` argument. An out-of-range index (only possible for the empty
list, where Python raises `IndexError`) gives `none`. -/
def RandomMove.search (board : Board) (i : Nat) : Option PlayResult :=
  (board.legalMoves[i]?).map (fun m => ⟨some m, none, false⟩)

/-- Embedding of `Alphabetical.search`: sort the legal moves by SAN rendering
and take the first; `moves[0]` on an empty list raises `IndexError`, modelled
as `none`. -/
def Alphabetical.search (board : Board) : Option PlayResult :=
  match sortByKey board.sanOf board.legalMoves with
  | [] => none
  | m :: _ => some ⟨some m, none, false⟩

/-- Embedding of `FirstMove.search`: sort the legal moves by `str(move)`,
which is the UCI rendering, and take the first. -/
def FirstMove.search (board : Board) : Option PlayResult :=
  match sortByKey Move.uci board.legalMoves with
  | [] => none
  | m :: _ => some ⟨some m, none, false⟩

/-- A JSON value, for the outbound request body.  Numbers are rationals: the
payload only carries the literals 0.7, 0.9, 1000, 1 and the move count. -/
inductive Json
  | null
  | bool (b : Bool)
  | num (q : ℚ)
  | str (s : String)
  | arr (elems : List Json)
  | obj (fields : List (String × Json))

/-- A player record of `model.Game`, carrying the rating used in the PGN
header tags. -/
structure Player where
  rating : Nat
deriving DecidableEq, Repr

/-- The slice of the `model.Game` context `LlamaEngine.search` reads: both
ratings and `my_color`, the side the bot plays (the side to move when the
engine is asked for a move). -/
structure GameModel where
  white : Player
  black : Player
  my_color : String
deriving DecidableEq, Repr

/-- The decoded inner object of the inference response (the second JSON
decode of the `output` field): the optional `move`, `illegal_moves` and
`resign` keys, each read with `result.get(key, None)`. -/
structure InferenceResponse where
  move : Option String
  illegal_moves : Option (List String)
  resign : Option Bool
deriving DecidableEq, Repr

/-- An HTTP response from the transport: the status code and the decoded
inner object, `none` when the body carries no usable `output` field. -/
structure HttpResponse where
  status : Nat
  output : Option InferenceResponse
deriving DecidableEq, Repr

/-- Transport-level failures of `requests.post`: the 300-second timeout
expiring, or a connection error. -/
inductive TransportFailure
  | timeout
  | connectionError
deriving DecidableEq, Repr

/-- The outbound HTTP request: URL, header list, JSON body. -/
structure HttpRequest where
  url : String
  headers : List (String × String)
  body : Json

/-- The HTTP transport, abstracted: one call of `requests.post`. -/
def Transport : Type :=
  HttpRequest → Except TransportFailure HttpResponse

/-- Process configuration read from the environment at import time:
`RUNPOD_API_KEY` and `RUNPOD_RUNSYNC_ENDPOINT`. -/
structure Config where
  apiKey : String
  endpoint : String
deriving DecidableEq, Repr

/-- Observable side effects of one `LlamaEngine.search` run, in order: the
outbound POST, and each `conversation.send_message(channel, text)` call. -/
inductive Event
  | post (req : HttpRequest)
  | message (channel : String) (text : String)

/-- The error outcomes of one `LlamaEngine.search` run.  `transport` and
`httpStatus` are the TransportError kind (`requests` exceptions from the call
or from `raise_for_status`); `responseFormat` is the ResponseFormatError kind
(the `TypeError` Python raises when the `output` field is unusable or when
`parse_san` is handed `None` because `move` is absent); `chess e` is a
move-parse failure, the python-chess exception `e` propagating out of
`board.parse_san`. -/
inductive SearchError
  | transport (f : TransportFailure)
  | httpStatus (code : Nat)
  | responseFormat
  | chess (e : ChessError)
deriving DecidableEq, Repr

/-- The diagnostic chat message built for a non-empty `illegal_moves` list:
`f"[Move {move_count}] tried {len} illegal move{plural}:  {joined}"`. -/
def illegalMovesMessage (move_count : Nat) (illegal_moves : List String) : String :=
  "[Move " ++ toString move_count ++ "] tried " ++
    toString illegal_moves.length ++ " illegal move" ++
    (if illegal_moves.length > 1 then "s" else "") ++ ":  " ++
    String.intercalate ", " illegal_moves

/-- The annotated PGN string: the two rating header tags prepended to the
stripped main-line move text. -/
def annotatedPgn (lichess_game : GameModel) (board : Board) : String :=
  "[WhiteElo \"" ++ toString lichess_game.white.rating ++ "\"]\n[BlackElo \"" ++
    toString lichess_game.black.rating ++ "\"]\n\n" ++ board.pgnMoveText.trim

/-- The request body dictionary `data`. -/
def requestData (pgn color : String) (move_count : Nat) : Json :=
  .obj [("input", .obj
    [("pgn", .str pgn),
     ("color", .str color),
     ("move_count", .num move_count),
     ("temperature", .num (7/10)),
     ("top_p", .num (9/10)),
     ("top_k", .num 1000),
     ("num_beams", .num 1),
     ("do_sample", .bool true),
     ("use_cache", .bool true)])]

/-- The fully assembled outbound request of one `LlamaEngine.search` run. -/
def builtRequest (cfg : Config) (lichess_game : GameModel) (board : Board) :
    HttpRequest :=
  { url := cfg.endpoint
    headers := [("Authorization", "Bearer " ++ cfg.apiKey),
                ("Content-Type", "application/json")]
    body := requestData (annotatedPgn lichess_game board)
      lichess_game.my_color board.fullmove_number }

/-- The diagnostic messages emitted for the `illegal_moves` field: two
`send_message` calls (player then spectator) when the list is present and
non-empty (`if illegal_moves:` Python truthiness), none otherwise. -/
def illegalMoveEvents (move_count : Nat) : Option (List String) → List Event
  | some l =>
    if l.isEmpty then []
    else [.message "player" (illegalMovesMessage move_count l),
          .message "spectator" (illegalMovesMessage move_count l)]
  | none => []

/-- Embedding of `LlamaEngine.search`.  It builds the annotated PGN and the
request, performs one transport call, applies `raise_for_status` (an
exception exactly for status codes in `[400, 600)`), decodes the doubly
encoded `output` object, sends the illegal-move diagnostics when the
`illegal_moves` list is truthy, returns a resigning `PlayResult` when
`resign` is truthy, and otherwise parses `move` with `board.parse_san`
(`None`, when the key is absent, makes `parse_san` raise a `TypeError`).
The first component collects the observable events in program order; the
second is the returned `PlayResult` or the exception that propagates. -/
def LlamaEngine.search (cfg : Config) (lichess_game : GameModel)
    (board : Board) (transport : Transport) :
    List Event × Except SearchError PlayResult :=
  match transport (builtRequest cfg lichess_game board) with
  | .error f => ([.post (builtRequest cfg lichess_game board)], .error (.transport f))
  | .ok response =>
    if 400 ≤ response.status ∧ response.status < 600 then
      ([.post (builtRequest cfg lichess_game board)], .error (.httpStatus response.status))
    else
      match response.output with
      | none => ([.post (builtRequest cfg lichess_game board)], .error .responseFormat)
      | some result =>
        if result.resign = some true then
          (.post (builtRequest cfg lichess_game board) ::
             illegalMoveEvents board.fullmove_number result.illegal_moves,
           .ok ⟨none, none, true⟩)
        else
          match result.move with
          | none =>
            (.post (builtRequest cfg lichess_game board) ::
               illegalMoveEvents board.fullmove_number result.illegal_moves,
             .error .responseFormat)
          | some s =>
            match board.parse_san s with
            | .error e =>
              (.post (builtRequest cfg lichess_game board) ::
                 illegalMoveEvents board.fullmove_number result.illegal_moves,
               .error (.chess e))
            | .ok m =>
              (.post (builtRequest cfg lichess_game board) ::
                 illegalMoveEvents board.fullmove_number result.illegal_moves,
               .ok ⟨some m, none, false⟩)

/-- Discriminator for POST events in a trace. -/
def Event.isPost : Event → Bool
  | .post _ => true
  | .message _ _ => false

/-- The texts of the messages a trace delivers to one named channel. -/
def messagesTo (channel : String) (events : List Event) : List String :=
  events.filterMap fun e =>
    match e with
    | .message c t => if c = channel then some t else none
    | .post _ => none

/-! Concrete fixtures used to instantiate the theorems below on closed
inputs. `testBoard` is a small abstract position with two legal moves whose
SAN renderings are `e4` and `a6`. -/

def moveE2E4 : Move := ⟨"e2e4"⟩

def moveA7A6 : Move := ⟨"a7a6"⟩

def testBoard : Board where
  legalMoves := [moveE2E4, moveA7A6]
  sanOf := fun m => if m = moveE2E4 then "e4" else "a6"
  sanCandidates := fun s =>
    if s = "e4" then [moveE2E4] else if s = "a6" then [moveA7A6] else []
  kingsideCastle := none
  queensideCastle := none
  pgnMoveText := ""
  fullmove_number := 1
  candidates_legal := by
    intro s m hm
    by_cases h4 : s = "e4"
    · simp [h4] at hm
      simp [hm]
    · by_cases h6 : s = "a6"
      · simp [h4, h6] at hm
        simp [hm]
      · simp [h4, h6] at hm
  kingside_legal := by
    intro m hm
    exact Option.noConfusion hm
  queenside_legal := by
    intro m hm
    exact Option.noConfusion hm

def testConfig : Config := ⟨"secret-key", "https://endpoint.example/runsync"⟩

def testGame : GameModel := ⟨⟨1500⟩, ⟨1600⟩, "white"⟩

/-- A transport answering every request with a fixed response. -/
def okTransport (resp : HttpResponse) : Transport :=
  fun _ => .ok resp

/-- A transport whose single call times out. -/
def failTransport : Transport :=
  fun _ => .error .timeout

def respResign : HttpResponse := ⟨200, some ⟨some "e4", none, some true⟩⟩

def respNoMove : HttpResponse := ⟨200, some ⟨none, none, some false⟩⟩

def respZ9 : HttpResponse := ⟨200, some ⟨some "z9", none, none⟩⟩

def respE5 : HttpResponse := ⟨200, some ⟨some "e5", none, none⟩⟩

def resp304 : HttpResponse := ⟨304, some ⟨some "e4", none, none⟩⟩

def respIllegal : HttpResponse := ⟨200, some ⟨none, some ["d4d5", "c2c9"], none⟩⟩

/-! Helper lemmas shared by the claim theorems. -/

theorem search_trace_eq (cfg : Config) (g : GameModel) (b : Board)
    (tr : Transport) (resp : HttpResponse) (result : InferenceResponse)
    (ht : tr (builtRequest cfg g b) = .ok resp)
    (hs : ¬(400 ≤ resp.status ∧ resp.status < 600))
    (ho : resp.output = some result) :
    (LlamaEngine.search cfg g b tr).1 =
      .post (builtRequest cfg g b) ::
        illegalMoveEvents b.fullmove_number result.illegal_moves := by
  unfold LlamaEngine.search
  rw [ht]
  simp only [if_neg hs, ho]
  split
  · rfl
  · split
    · rfl
    · split
      · rfl
      · rfl

theorem search_posts (cfg : Config) (g : GameModel) (b : Board)
    (tr : Transport) :
    ((LlamaEngine.search cfg g b tr).1.filter Event.isPost) =
      [.post (builtRequest cfg g b)] := by
  have hie : ∀ mc o, (illegalMoveEvents mc o).filter Event.isPost = [] := by
    intro mc o
    cases o with
    | none => rfl
    | some l =>
      by_cases h : l.isEmpty
      · simp [illegalMoveEvents, h]
      · simp [illegalMoveEvents, h, Event.isPost]
  unfold LlamaEngine.search
  cases htr : tr (builtRequest cfg g b) with
  | error f => simp [Event.isPost]
  | ok resp =>
    repeat' split
    all_goals try dsimp only
    all_goals simp [Event.isPost, hie]

/-- C1: an inference response whose decoded inner object has `resign = true`
makes the resolver return a resigning MoveDecision carrying no move,
whatever the `move` string of the response is (the resignation branch
returns before any move parsing). -/
theorem resign_precedence (cfg : Config) (g : GameModel) (b : Board)
    (tr : Transport) (resp : HttpResponse) (result : InferenceResponse)
    (ht : tr (builtRequest cfg g b) = .ok resp)
    (hs : ¬(400 ≤ resp.status ∧ resp.status < 600))
    (ho : resp.output = some result)
    (hr : result.resign = some true) :
    (LlamaEngine.search cfg g b tr).2 = .ok ⟨none, none, true⟩ := by
  unfold LlamaEngine.search
  rw [ht]
  simp only [if_neg hs, ho]
  rw [if_pos hr]

/-- C1 witness: on the concrete fixture response carrying both
`resign = true` and the move string `e4`, the resolver resigns. -/
theorem resign_precedence_witness :
    (LlamaEngine.search testConfig testGame testBoard
        (okTransport respResign)).2 = .ok ⟨none, none, true⟩ :=
  resign_precedence testConfig testGame testBoard (okTransport respResign)
    respResign ⟨some "e4", none, some true⟩ rfl (by decide) rfl rfl

/-- C2: when the decoded inner object has `resign` false or absent and no
`move` field, the resolver fails with the missing-field format error and
returns no MoveDecision (in particular it does not fall back to a default
move). -/
theorem missing_move_error (cfg : Config) (g : GameModel) (b : Board)
    (tr : Transport) (resp : HttpResponse) (result : InferenceResponse)
    (ht : tr (builtRequest cfg g b) = .ok resp)
    (hs : ¬(400 ≤ resp.status ∧ resp.status < 600))
    (ho : resp.output = some result)
    (hr : result.resign = none ∨ result.resign = some false)
    (hm : result.move = none) :
    (LlamaEngine.search cfg g b tr).2 = .error .responseFormat := by
  have hrt : ¬(result.resign = some true) := by
    rcases hr with h | h <;> simp [h]
  unfold LlamaEngine.search
  rw [ht]
  simp only [if_neg hs, ho]
  rw [if_neg hrt, hm]

/-- C2 witness: on the concrete fixture response with `resign = false` and
no `move` key, the resolver fails with the format error. -/
theorem missing_move_error_witness :
    (LlamaEngine.search testConfig testGame testBoard
        (okTransport respNoMove)).2 = .error .responseFormat :=
  missing_move_error testConfig testGame testBoard (okTransport respNoMove)
    respNoMove ⟨none, none, some false⟩ rfl (by decide) rfl (Or.inr rfl) rfl

/-- C3: on a board with at least one legal move, each of the three local
strategies produces a PlayResult whose move is a member of the legal-move
list (the random strategy for every index the random generator can draw). -/
theorem local_strategies_legal (b : Board) (h : b.legalMoves ≠ []) :
    (∀ i, i < b.legalMoves.length →
       ∃ m, RandomMove.search b i = some ⟨some m, none, false⟩ ∧
         m ∈ b.legalMoves) ∧
    (∃ m, Alphabetical.search b = some ⟨some m, none, false⟩ ∧
       m ∈ b.legalMoves) ∧
    (∃ m, FirstMove.search b = some ⟨some m, none, false⟩ ∧
       m ∈ b.legalMoves) := by
  refine ⟨?_, ?_, ?_⟩
  · intro i hi
    refine ⟨b.legalMoves[i], ?_, List.getElem_mem hi⟩
    unfold RandomMove.search
    rw [List.getElem?_eq_getElem hi]
    rfl
  · cases hs : sortByKey b.sanOf b.legalMoves with
    | nil =>
      exfalso
      have hp := sortByKey_perm b.sanOf b.legalMoves
      rw [hs] at hp
      exact h hp.symm.eq_nil
    | cons m rest =>
      have hm := sortByKey_head_min b.sanOf b.legalMoves m rest hs
      refine ⟨m, ?_, hm.1⟩
      unfold Alphabetical.search
      rw [hs]
  · cases hs : sortByKey Move.uci b.legalMoves with
    | nil =>
      exfalso
      have hp := sortByKey_perm Move.uci b.legalMoves
      rw [hs] at hp
      exact h hp.symm.eq_nil
    | cons m rest =>
      have hm := sortByKey_head_min Move.uci b.legalMoves m rest hs
      refine ⟨m, ?_, hm.1⟩
      unfold FirstMove.search
      rw [hs]

/-- C3 witness: the three strategies on the concrete two-move fixture board. -/
theorem local_strategies_legal_witness :
    (∀ i, i < testBoard.legalMoves.length →
       ∃ m, RandomMove.search testBoard i = some ⟨some m, none, false⟩ ∧
         m ∈ testBoard.legalMoves) ∧
    (∃ m, Alphabetical.search testBoard = some ⟨some m, none, false⟩ ∧
       m ∈ testBoard.legalMoves) ∧
    (∃ m, FirstMove.search testBoard = some ⟨some m, none, false⟩ ∧
       m ∈ testBoard.legalMoves) :=
  local_strategies_legal testBoard (by decide)

/-- C8: the alphabetical strategy returns the legal move of lexicographically
least SAN rendering, the first-by-machine-notation strategy the legal move of
lexicographically least UCI rendering, and both are deterministic functions
of the board. -/
theorem sorted_strategies_first (b : Board) (h : b.legalMoves ≠ []) :
    (∃ m, Alphabetical.search b = some ⟨some m, none, false⟩ ∧
       m ∈ b.legalMoves ∧ ∀ x ∈ b.legalMoves, b.sanOf m ≤ b.sanOf x) ∧
    (∃ m, FirstMove.search b = some ⟨some m, none, false⟩ ∧
       m ∈ b.legalMoves ∧ ∀ x ∈ b.legalMoves, m.uci ≤ x.uci) ∧
    (∀ b2 : Board, b2 = b →
       Alphabetical.search b2 = Alphabetical.search b ∧
       FirstMove.search b2 = FirstMove.search b) := by
  refine ⟨?_, ?_, ?_⟩
  · cases hs : sortByKey b.sanOf b.legalMoves with
    | nil =>
      exfalso
      have hp := sortByKey_perm b.sanOf b.legalMoves
      rw [hs] at hp
      exact h hp.symm.eq_nil
    | cons m rest =>
      have hm := sortByKey_head_min b.sanOf b.legalMoves m rest hs
      refine ⟨m, ?_, hm.1, hm.2⟩
      unfold Alphabetical.search
      rw [hs]
  · cases hs : sortByKey Move.uci b.legalMoves with
    | nil =>
      exfalso
      have hp := sortByKey_perm Move.uci b.legalMoves
      rw [hs] at hp
      exact h hp.symm.eq_nil
    | cons m rest =>
      have hm := sortByKey_head_min Move.uci b.legalMoves m rest hs
      refine ⟨m, ?_, hm.1, hm.2⟩
      unfold FirstMove.search
      rw [hs]
  · intro b2 hb
    rw [hb]
    exact ⟨rfl, rfl⟩

/-- C8 witness: on the concrete fixture board the two sorted strategies pick
the move with the least rendering. -/
theorem sorted_strategies_first_witness :
    (∃ m, Alphabetical.search testBoard = some ⟨some m, none, false⟩ ∧
       m ∈ testBoard.legalMoves ∧
       ∀ x ∈ testBoard.legalMoves, testBoard.sanOf m ≤ testBoard.sanOf x) ∧
    (∃ m, FirstMove.search testBoard = some ⟨some m, none, false⟩ ∧
       m ∈ testBoard.legalMoves ∧
       ∀ x ∈ testBoard.legalMoves, m.uci ≤ x.uci) ∧
    (∀ b2 : Board, b2 = testBoard →
       Alphabetical.search b2 = Alphabetical.search testBoard ∧
       FirstMove.search b2 = FirstMove.search testBoard) :=
  sorted_strategies_first testBoard (by decide)

/-- C4: when `resign` is false or absent and the `move` string is malformed
notation — rejected by the SAN regular expression and none of the castling
or null-move spellings, like `z9` — the resolver fails with the
`InvalidMoveError` parse failure and returns no MoveDecision. -/
theorem unparseable_move_invalid (cfg : Config) (g : GameModel) (b : Board)
    (tr : Transport) (resp : HttpResponse) (result : InferenceResponse)
    (s : String)
    (ht : tr (builtRequest cfg g b) = .ok resp)
    (hs : ¬(400 ≤ resp.status ∧ resp.status < 600))
    (ho : resp.output = some result)
    (hr : result.resign = none ∨ result.resign = some false)
    (hm : result.move = some s)
    (h1 : s ∉ castlingKingsideSan) (h2 : s ∉ castlingQueensideSan)
    (h3 : sanRegexMatches s = false) (h4 : s ∉ nullMoveSan) :
    (LlamaEngine.search cfg g b tr).2 = .error (.chess .invalidMove) := by
  have hrt : ¬(result.resign = some true) := by
    rcases hr with h | h <;> simp [h]
  have hps : b.parse_san s = .error .invalidMove := by
    unfold Board.parse_san
    rw [if_neg h1, if_neg h2, if_neg (by simp [h3]), if_neg h4]
  unfold LlamaEngine.search
  rw [ht]
  simp only [if_neg hs, ho]
  rw [if_neg hrt, hm]
  dsimp only
  rw [hps]

/-- C4 witness: the spec example `move = "z9"` on the fixture board fails
with the invalid-move parse error. -/
theorem unparseable_move_invalid_witness :
    (LlamaEngine.search testConfig testGame testBoard
        (okTransport respZ9)).2 = .error (.chess .invalidMove) :=
  unparseable_move_invalid testConfig testGame testBoard (okTransport respZ9)
    respZ9 ⟨some "z9", none, none⟩ "z9" rfl (by decide) rfl (Or.inl rfl) rfl
    (by decide) (by decide) (by decide) (by decide)

/-- C10: with `resign` false or absent, a `move` string the SAN regular
expression accepts but which no legal move of the board matches fails with
`IllegalMoveError`, while a string the regular expression rejects (and which
is none of the special spellings) fails with `InvalidMoveError`; the two
error kinds are distinct and neither case returns a MoveDecision. -/
theorem parse_error_kinds (cfg : Config) (g : GameModel) (b : Board)
    (tr : Transport) (resp : HttpResponse) (result : InferenceResponse)
    (s : String)
    (ht : tr (builtRequest cfg g b) = .ok resp)
    (hs : ¬(400 ≤ resp.status ∧ resp.status < 600))
    (ho : resp.output = some result)
    (hr : result.resign = none ∨ result.resign = some false)
    (hm : result.move = some s)
    (h1 : s ∉ castlingKingsideSan) (h2 : s ∉ castlingQueensideSan) :
    (sanRegexMatches s = true → b.sanCandidates s = [] →
       (LlamaEngine.search cfg g b tr).2 = .error (.chess .illegalMove)) ∧
    (sanRegexMatches s = false → s ∉ nullMoveSan →
       (LlamaEngine.search cfg g b tr).2 = .error (.chess .invalidMove)) ∧
    ChessError.illegalMove ≠ ChessError.invalidMove := by
  have hrt : ¬(result.resign = some true) := by
    rcases hr with h | h <;> simp [h]
  refine ⟨?_, ?_, by decide⟩
  · intro hrx hcand
    have hps : b.parse_san s = .error .illegalMove := by
      unfold Board.parse_san
      rw [if_neg h1, if_neg h2, if_pos hrx, hcand]
    unfold LlamaEngine.search
    rw [ht]
    simp only [if_neg hs, ho]
    rw [if_neg hrt, hm]
    dsimp only
    rw [hps]
  · intro hrx h4
    have hps : b.parse_san s = .error .invalidMove := by
      unfold Board.parse_san
      rw [if_neg h1, if_neg h2, if_neg (by simp [hrx]), if_neg h4]
    unfold LlamaEngine.search
    rw [ht]
    simp only [if_neg hs, ho]
    rw [if_neg hrt, hm]
    dsimp only
    rw [hps]

/-- C10 witness: the well-formed SAN string `e5`, which no legal move of the
fixture board matches, fails with the illegal-move error, distinct from the
invalid-move error. -/
theorem parse_error_kinds_witness :
    (LlamaEngine.search testConfig testGame testBoard
        (okTransport respE5)).2 = .error (.chess .illegalMove) ∧
    ChessError.illegalMove ≠ ChessError.invalidMove := by
  have h := parse_error_kinds testConfig testGame testBoard
    (okTransport respE5) respE5 ⟨some "e5", none, none⟩ "e5" rfl (by decide)
    rfl (Or.inl rfl) rfl (by decide) (by decide)
  exact ⟨h.1 (by decide) (by decide), h.2.2⟩

/-- C5 counterexample: the claim says every non-2xx status surfaces as a
hard failure, but `raise_for_status` only raises for codes in `[400, 600)`;
a 304 response with a usable body yields a successful MoveDecision. -/
theorem non2xx_not_failure :
    (LlamaEngine.search testConfig testGame testBoard
        (okTransport resp304)).2 = .ok ⟨some moveE2E4, none, false⟩ ∧
    resp304.status = 304 ∧ ¬(200 ≤ 304 ∧ 304 < 300) := by
  refine ⟨?_, rfl, by decide⟩
  rfl

/-- C5 (amended): every invocation issues exactly one outbound POST, and a
transport failure (timeout, connection error) or a status code in
`[400, 600)` — the codes `raise_for_status` throws for — surfaces as a hard
failure with that single POST as the whole trace: no second request, no
retry. -/
theorem single_post_no_retry (cfg : Config) (g : GameModel) (b : Board)
    (tr : Transport) :
    ((LlamaEngine.search cfg g b tr).1.filter Event.isPost) =
        [.post (builtRequest cfg g b)] ∧
    (∀ f, tr (builtRequest cfg g b) = .error f →
        LlamaEngine.search cfg g b tr =
          ([.post (builtRequest cfg g b)], .error (.transport f))) ∧
    (∀ resp, tr (builtRequest cfg g b) = .ok resp →
        400 ≤ resp.status → resp.status < 600 →
        LlamaEngine.search cfg g b tr =
          ([.post (builtRequest cfg g b)], .error (.httpStatus resp.status))) := by
  refine ⟨search_posts cfg g b tr, ?_, ?_⟩
  · intro f hf
    unfold LlamaEngine.search
    rw [hf]
  · intro resp hresp h4 h6
    unfold LlamaEngine.search
    rw [hresp]
    dsimp only
    rw [if_pos (And.intro h4 h6)]

/-- C5 witness: a timing-out transport makes the run consist of the single
POST and the transport error. -/
theorem single_post_no_retry_witness :
    LlamaEngine.search testConfig testGame testBoard failTransport =
      ([.post (builtRequest testConfig testGame testBoard)],
        .error (.transport .timeout)) :=
  (single_post_no_retry testConfig testGame testBoard failTransport).2.1
    .timeout rfl

/-- C6: when the decoded inner object carries a non-empty `illegal_moves`
list, the run delivers exactly one diagnostic message to the player channel
and exactly one to the spectator channel, both equal to the format string
carrying the count of illegal moves and the comma-joined full list; when the
list is empty or absent no message is sent to any channel. -/
theorem illegal_moves_diagnostics (cfg : Config) (g : GameModel) (b : Board)
    (tr : Transport) (resp : HttpResponse) (result : InferenceResponse)
    (ht : tr (builtRequest cfg g b) = .ok resp)
    (hs : ¬(400 ≤ resp.status ∧ resp.status < 600))
    (ho : resp.output = some result) :
    (∀ l, result.illegal_moves = some l → l ≠ [] →
       messagesTo "player" (LlamaEngine.search cfg g b tr).1 =
           [illegalMovesMessage b.fullmove_number l] ∧
       messagesTo "spectator" (LlamaEngine.search cfg g b tr).1 =
           [illegalMovesMessage b.fullmove_number l] ∧
       illegalMovesMessage b.fullmove_number l =
         "[Move " ++ toString b.fullmove_number ++ "] tried " ++
           toString l.length ++ " illegal move" ++
           (if l.length > 1 then "s" else "") ++ ":  " ++
           String.intercalate ", " l) ∧
    ((result.illegal_moves = none ∨ result.illegal_moves = some []) →
       ∀ c t, Event.message c t ∉ (LlamaEngine.search cfg g b tr).1) := by
  have htr := search_trace_eq cfg g b tr resp result ht hs ho
  constructor
  · intro l hl hne
    have hemp : l.isEmpty = false := by
      cases l with
      | nil => exact absurd rfl hne
      | cons a l2 => rfl
    rw [htr, hl]
    refine ⟨?_, ?_, rfl⟩
    · simp [messagesTo, illegalMoveEvents, hemp]
    · simp [messagesTo, illegalMoveEvents, hemp]
  · intro hl c t
    rw [htr]
    rcases hl with h | h <;> simp [h, illegalMoveEvents]

/-- C6 witness: a response reporting two illegal internal attempts makes the
run message both channels with the two-move diagnostic, which spells the
count and the joined list. -/
theorem illegal_moves_diagnostics_witness :
    (∀ l, (⟨none, some ["d4d5", "c2c9"], none⟩ :
          InferenceResponse).illegal_moves = some l → l ≠ [] →
       messagesTo "player" (LlamaEngine.search testConfig testGame testBoard
           (okTransport respIllegal)).1 =
           [illegalMovesMessage testBoard.fullmove_number l] ∧
       messagesTo "spectator" (LlamaEngine.search testConfig testGame
           testBoard (okTransport respIllegal)).1 =
           [illegalMovesMessage testBoard.fullmove_number l] ∧
       illegalMovesMessage testBoard.fullmove_number l =
         "[Move " ++ toString testBoard.fullmove_number ++ "] tried " ++
           toString l.length ++ " illegal move" ++
           (if l.length > 1 then "s" else "") ++ ":  " ++
           String.intercalate ", " l) ∧
    (((⟨none, some ["d4d5", "c2c9"], none⟩ :
          InferenceResponse).illegal_moves = none ∨
        (⟨none, some ["d4d5", "c2c9"], none⟩ :
          InferenceResponse).illegal_moves = some []) →
       ∀ c t, Event.message c t ∉
         (LlamaEngine.search testConfig testGame testBoard
           (okTransport respIllegal)).1) :=
  illegal_moves_diagnostics testConfig testGame testBoard
    (okTransport respIllegal) respIllegal ⟨none, some ["d4d5", "c2c9"], none⟩
    rfl (by decide) rfl

/-- C7: every invocation posts exactly one request; its URL is the
configured endpoint, its headers are the bearer authorization and the JSON
content type, and its body is the single-key `input` object carrying the
rating-annotated PGN, the color from the game context, the move count from
the board, and exactly the fixed sampling parameters. -/
theorem request_shape (cfg : Config) (g : GameModel) (b : Board)
    (tr : Transport) :
    ((LlamaEngine.search cfg g b tr).1.filter Event.isPost) =
        [.post (builtRequest cfg g b)] ∧
    builtRequest cfg g b =
      { url := cfg.endpoint
        headers := [("Authorization", "Bearer " ++ cfg.apiKey),
                    ("Content-Type", "application/json")]
        body := Json.obj [("input", Json.obj
          [("pgn", Json.str ("[WhiteElo \"" ++ toString g.white.rating ++
              "\"]\n[BlackElo \"" ++ toString g.black.rating ++ "\"]\n\n" ++
              b.pgnMoveText.trim)),
           ("color", Json.str g.my_color),
           ("move_count", Json.num b.fullmove_number),
           ("temperature", Json.num (7/10)),
           ("top_p", Json.num (9/10)),
           ("top_k", Json.num 1000),
           ("num_beams", Json.num 1),
           ("do_sample", Json.bool true),
           ("use_cache", Json.bool true)])] } :=
  ⟨search_posts cfg g b tr, rfl⟩

/-- C9: a run whose response reports a non-empty `illegal_moves` list and
which then ends in an error has already delivered both diagnostic messages:
its full trace is the POST followed by the player message and the spectator
message, and the error is necessarily post-response (the format error or a
move-parse error). -/
theorem diagnostics_before_error (cfg : Config) (g : GameModel) (b : Board)
    (tr : Transport) (resp : HttpResponse) (result : InferenceResponse)
    (l : List String) (e : SearchError)
    (ht : tr (builtRequest cfg g b) = .ok resp)
    (hs : ¬(400 ≤ resp.status ∧ resp.status < 600))
    (ho : resp.output = some result)
    (hl : result.illegal_moves = some l) (hne : l ≠ [])
    (he : (LlamaEngine.search cfg g b tr).2 = .error e) :
    (LlamaEngine.search cfg g b tr).1 =
      [.post (builtRequest cfg g b),
       .message "player" (illegalMovesMessage b.fullmove_number l),
       .message "spectator" (illegalMovesMessage b.fullmove_number l)] ∧
    (e = .responseFormat ∨ ∃ ce, e = .chess ce) := by
  have hemp : l.isEmpty = false := by
    cases l with
    | nil => exact absurd rfl hne
    | cons a l2 => rfl
  have htr := search_trace_eq cfg g b tr resp result ht hs ho
  constructor
  · rw [htr, hl]
    simp [illegalMoveEvents, hemp]
  · unfold LlamaEngine.search at he
    rw [ht] at he
    simp only [if_neg hs, ho] at he
    by_cases hrt : result.resign = some true
    · rw [if_pos hrt] at he
      simp at he
    · rw [if_neg hrt] at he
      cases hmv : result.move with
      | none =>
        rw [hmv] at he
        simp at he
        exact Or.inl he.symm
      | some s =>
        rw [hmv] at he
        dsimp only at he
        cases hps : b.parse_san s with
        | error ce =>
          rw [hps] at he
          simp at he
          exact Or.inr ⟨ce, he.symm⟩
        | ok m =>
          rw [hps] at he
          simp at he

/-- C9 witness: a response reporting an illegal move and carrying neither a
move nor a resignation errors out only after both diagnostics are in the
trace. -/
theorem diagnostics_before_error_witness :
    (LlamaEngine.search testConfig testGame testBoard
        (okTransport respIllegal)).1 =
      [.post (builtRequest testConfig testGame testBoard),
       .message "player"
         (illegalMovesMessage testBoard.fullmove_number ["d4d5", "c2c9"]),
       .message "spectator"
         (illegalMovesMessage testBoard.fullmove_number ["d4d5", "c2c9"])] ∧
    ((SearchError.responseFormat = .responseFormat) ∨
      ∃ ce, SearchError.responseFormat = .chess ce) :=
  diagnostics_before_error testConfig testGame testBoard
    (okTransport respIllegal) respIllegal ⟨none, some ["d4d5", "c2c9"], none⟩
    ["d4d5", "c2c9"] .responseFormat rfl (by decide) rfl rfl (by decide) rfl

end LichessBot
